import Mathlib

/-!
Verification of the session-scoped alias registry, calendar-visibility cache,
reminder service and persistent reminder store of the web-agent backend
(`backend/app/alias.py`, `calendar_visibility.py`, `reminders.py`,
`persistent_reminder_store.py`, `reminder_serialization.py`).

The Python code is embedded shallowly: dictionaries become association lists,
in-place mutation becomes explicit state passing, raised exceptions become
`Except`, and Python `None` becomes `Option`.  Timezone-aware datetimes (as
produced by `utils.now()`) are totally ordered and round-trip exactly through
`isoformat`/`fromisoformat`; they are modelled as microseconds since the epoch,
with `isoformat` rendered as the decimal numeral (an exact-inverse text form,
which is the property the code relies on).
-/

set_option maxHeartbeats 1000000

namespace WebAgent

/-! ### Decimal numerals

Python's `str(counter)` (used to mint aliases) and the textual timestamp form
are decimal numerals.  `natStr` renders a natural number in decimal using a
fuel-based recursion (fuel `n + 1` always suffices since `n / 10 < n`), and
`parseDec` is its parser, used to prove that rendering is injective. -/

def digitChar (d : Nat) : Char := Char.ofNat (48 + d)

def recDigits : Nat → Nat → List Char → List Char
  | 0, _, acc => acc
  | fuel + 1, n, acc =>
      if n < 10 then digitChar n :: acc
      else recDigits fuel (n / 10) (digitChar (n % 10) :: acc)

def natDigits (n : Nat) : List Char := recDigits (n + 1) n []

def natStr (n : Nat) : String := ⟨natDigits n⟩

def digitVal (c : Char) : Option Nat :=
  if 48 ≤ c.toNat ∧ c.toNat ≤ 57 then some (c.toNat - 48) else none

def parseDigits : List Char → Nat → Option Nat
  | [], acc => some acc
  | c :: cs, acc =>
      match digitVal c with
      | some d => parseDigits cs (acc * 10 + d)
      | none => none

def parseDec (s : String) : Option Nat :=
  match s.data with
  | [] => none
  | _ => parseDigits s.data 0

theorem recDigits_acc (n : Nat) :
    ∀ fuel acc, n < fuel → recDigits fuel n acc = natDigits n ++ acc := by
  induction n using Nat.strong_induction_on with
  | _ n ih =>
    intro fuel acc h
    match fuel with
    | 0 => omega
    | f + 1 =>
      by_cases h10 : n < 10
      · simp [recDigits, natDigits, h10]
      · have hdiv : n / 10 < n := Nat.div_lt_self (by omega) (by omega)
        have hstep : recDigits (f + 1) n acc
            = recDigits f (n / 10) (digitChar (n % 10) :: acc) := by
          simp [recDigits, h10]
        have hnat : natDigits n
            = natDigits (n / 10) ++ [digitChar (n % 10)] := by
          have h2 : natDigits n = recDigits n (n / 10) [digitChar (n % 10)] := by
            simp [natDigits, recDigits, h10]
          rw [h2]
          exact ih (n / 10) hdiv n _ (by omega)
        rw [hstep, ih (n / 10) hdiv f _ (by omega), hnat, List.append_assoc]
        rfl

theorem natDigits_step {n : Nat} (h : ¬ n < 10) :
    natDigits n = natDigits (n / 10) ++ [digitChar (n % 10)] := by
  have hdiv : n / 10 < n := Nat.div_lt_self (by omega) (by omega)
  have : natDigits n = recDigits n (n / 10) [digitChar (n % 10)] := by
    simp [natDigits, recDigits, h]
  rw [this, recDigits_acc (n / 10) n _ (by omega)]

theorem natDigits_small {n : Nat} (h : n < 10) : natDigits n = [digitChar n] := by
  simp [natDigits, recDigits, h]

theorem digitVal_digitChar : ∀ d, d < 10 → digitVal (digitChar d) = some d := by decide

theorem parseDigits_append (xs : List Char) :
    ∀ ys k, parseDigits (xs ++ ys) k
      = match parseDigits xs k with
        | some m => parseDigits ys m
        | none => none := by
  induction xs with
  | nil => intro ys k; rfl
  | cons c cs ih =>
    intro ys k
    simp only [List.cons_append, parseDigits]
    cases digitVal c with
    | none => rfl
    | some d => exact ih ys (k * 10 + d)

theorem parseDigits_natDigits (n : Nat) :
    ∀ k, parseDigits (natDigits n) k = some (k * 10 ^ (natDigits n).length + n) := by
  induction n using Nat.strong_induction_on with
  | _ n ih =>
    intro k
    by_cases h10 : n < 10
    · rw [natDigits_small h10]
      simp [parseDigits, digitVal_digitChar n h10]
    · have hdiv : n / 10 < n := Nat.div_lt_self (by omega) (by omega)
      rw [natDigits_step h10, parseDigits_append]
      rw [ih (n / 10) hdiv k]
      have hd : n % 10 < 10 := Nat.mod_lt _ (by omega)
      simp only [parseDigits, digitVal_digitChar _ hd]
      have hmod : n / 10 * 10 + n % 10 = n := by omega
      have : (k * 10 ^ (natDigits (n / 10)).length + n / 10) * 10 + n % 10
          = k * 10 ^ ((natDigits (n / 10)).length + 1) + n := by
        rw [pow_succ]; ring_nf; omega
      rw [this]
      simp [List.length_append, pow_succ]

theorem natDigits_ne_nil (n : Nat) : natDigits n ≠ [] := by
  by_cases h10 : n < 10
  · rw [natDigits_small h10]; simp
  · rw [natDigits_step h10]; simp

theorem parseDec_natStr (n : Nat) : parseDec (natStr n) = some n := by
  have h := natDigits_ne_nil n
  have : parseDec (natStr n) = parseDigits (natDigits n) 0 := by
    unfold parseDec natStr
    cases hd : natDigits n with
    | nil => exact absurd hd h
    | cons c cs => simp [hd]
  rw [this, parseDigits_natDigits n 0]
  simp

theorem natStr_injective {a b : Nat} (h : natStr a = natStr b) : a = b := by
  have := parseDec_natStr a
  rw [h, parseDec_natStr b] at this
  exact (Option.some_injective _ this).symm

/-! ### AliasService (`backend/app/alias.py`)

Registered payloads are the dictionaries built by `register_calendar`,
`register_task_list`, `register_task` and `register_event`; they are embedded
as a sum type, matching the spec's tagged-union reading of the duck-typed
dicts.  `typeOf` is the payload's `"type"` field. -/

inductive AliasPayload where
  | calendar (calendar_id : String) (access_role : Option String)
  | task_list (task_list_id : String)
  | task (task_list_id : String) (task_id : String)
  | event (event_id : String) (calendar_id : String) (readonly : Bool)
deriving DecidableEq, Repr

def AliasPayload.typeOf : AliasPayload → String
  | .calendar _ _ => "calendar"
  | .task_list _ => "task_list"
  | .task _ _ => "task"
  | .event _ _ _ => "event"

/-- Embeds `AliasService._payload_key`: `repr(sorted(key_payload.items()))` after
dropping `readonly` (events) and `access_role` (calendars).  Python's `repr`
of the sorted item list is injective in the remaining fields, so the key is
embedded as the tuple of those fields. -/
inductive PayloadKey where
  | calendar (calendar_id : String)
  | task_list (task_list_id : String)
  | task (task_list_id : String) (task_id : String)
  | event (event_id : String) (calendar_id : String)
deriving DecidableEq, Repr

def payloadKey : AliasPayload → PayloadKey
  | .calendar cid _ => .calendar cid
  | .task_list lid => .task_list lid
  | .task lid tid => .task lid tid
  | .event eid cid _ => .event eid cid

/-- The per-session alias state dict `{"counter": …, "aliases": …, "reverse": …}`.
The two dicts are embedded as association lists; Python dicts never hold
duplicate keys and neither do these lists along any reachable state. -/
structure AliasState where
  counter : Nat
  aliases : List (String × AliasPayload)
  reverse : List (PayloadKey × String)
deriving DecidableEq, Repr

def lookupA : List (String × AliasPayload) → String → Option AliasPayload
  | [], _ => none
  | (k, v) :: rest, a => if k = a then some v else lookupA rest a

def lookupR : List (PayloadKey × String) → PayloadKey → Option String
  | [], _ => none
  | (k, v) :: rest, a => if k = a then some v else lookupR rest a

/-- Embeds `AliasService.reset` and the fresh `SessionData.alias_state`. -/
def AliasState.reset : AliasState := ⟨0, [], []⟩

namespace AliasService

/-- Embeds `AliasService._register`. -/
def _register (s : AliasState) (payload : AliasPayload) : String × AliasState :=
  let key := payloadKey payload
  match lookupR s.reverse key with
  | some a => (a, s)
  | none =>
      let counter := s.counter + 1
      let a := natStr counter
      (a, { counter := counter
            aliases := (a, payload) :: s.aliases
            reverse := (key, a) :: s.reverse })

def register_calendar (s : AliasState) (calendar_id : String)
    (access_role : Option String) : String × AliasState :=
  _register s (.calendar calendar_id access_role)

def register_task_list (s : AliasState) (task_list_id : String) : String × AliasState :=
  _register s (.task_list task_list_id)

def register_task (s : AliasState) (task_list_id task_id : String) : String × AliasState :=
  _register s (.task task_list_id task_id)

def register_event (s : AliasState) (event_id : String) (calendar_id : String)
    (readonly : Bool) : String × AliasState :=
  _register s (.event event_id calendar_id readonly)

/-- Embeds `AliasService._payload`. -/
def _payload (s : AliasState) (a : String) : Option AliasPayload :=
  lookupA s.aliases a

def resolve_calendar (s : AliasState) (alias_or_real : String) : String :=
  match _payload s alias_or_real with
  | some (.calendar cid _) => cid
  | _ => alias_or_real

def resolve_task_list (s : AliasState) (alias_or_real : String) : String :=
  match _payload s alias_or_real with
  | some (.task_list lid) => lid
  | _ => alias_or_real

def resolve_task (s : AliasState) (task_list_alias task_alias : String) :
    String × String :=
  let task_list_id := resolve_task_list s task_list_alias
  match _payload s task_alias with
  | some (.task lid tid) => (lid, tid)
  | _ => (task_list_id, task_alias)

def resolve_event (s : AliasState) (alias_or_real : String)
    (default_calendar : String) : String × String :=
  match _payload s alias_or_real with
  | some (.event eid cid _) => (cid, eid)
  | _ => (default_calendar, alias_or_real)

end AliasService

/-! Well-formedness of an alias state: every reverse entry points at a stored
payload projecting back to its key, and every issued alias is the numeral of
some counter value between 1 and `counter`.  `AliasState.reset` (the state
every session starts from) is well-formed, and `_register` preserves it. -/

def optHolds {α : Type} (o : Option α) (P : α → Prop) : Prop :=
  match o with
  | some x => P x
  | none => False

instance {α : Type} (o : Option α) (P : α → Prop) [DecidablePred P] :
    Decidable (optHolds o P) := by
  cases o with
  | none => exact isFalse (by simp [optHolds])
  | some x =>
      have : optHolds (some x) P = P x := rfl
      rw [this]; infer_instance

theorem optHolds_some {α : Type} {o : Option α} {P : α → Prop} (h : optHolds o P) :
    ∃ x, o = some x ∧ P x := by
  cases o with
  | none => exact absurd h (by simp [optHolds])
  | some x => exact ⟨x, rfl, h⟩

def WFAlias (s : AliasState) : Prop :=
  (∀ p ∈ s.reverse,
      optHolds (lookupA s.aliases p.2) (fun payload => payloadKey payload = p.1)) ∧
  (∀ p ∈ s.reverse,
      optHolds (parseDec p.2) (fun n => 1 ≤ n ∧ n ≤ s.counter ∧ p.2 = natStr n))

instance (s : AliasState) : Decidable (WFAlias s) := instDecidableAnd

theorem lookupR_mem {l : List (PayloadKey × String)} {k : PayloadKey} {v : String}
    (h : lookupR l k = some v) : (k, v) ∈ l := by
  induction l with
  | nil => simp [lookupR] at h
  | cons p rest ih =>
    obtain ⟨pk, pv⟩ := p
    by_cases he : pk = k
    · subst he
      simp [lookupR] at h
      simp [h]
    · simp [lookupR, he] at h
      exact List.mem_cons_of_mem _ (ih h)

theorem WFAlias_reset : WFAlias AliasState.reset := by
  constructor <;> intro p hp <;> simp [AliasState.reset] at hp

theorem register_WF {s : AliasState} (h : WFAlias s) (p : AliasPayload) :
    WFAlias (AliasService._register s p).2 := by
  unfold AliasService._register
  cases hr : lookupR s.reverse (payloadKey p) with
  | some a => simp only [hr]; exact h
  | none =>
      simp only [hr]
      obtain ⟨h1, h2⟩ := h
      constructor
      · intro q hq
        simp only [List.mem_cons] at hq
        rcases hq with hq | hq
        · subst hq
          simp [optHolds, lookupA]
        · have hold := h1 q hq
          have hne : natStr (s.counter + 1) ≠ q.2 := by
            obtain ⟨n, hpn, hn1, hn2, hn3⟩ := optHolds_some (h2 q hq)
            intro hcontra
            rw [hn3] at hcontra
            have := natStr_injective hcontra
            omega
          simpa [lookupA, hne] using hold
      · intro q hq
        simp only [List.mem_cons] at hq
        rcases hq with hq | hq
        · subst hq
          simp only [optHolds, parseDec_natStr]
          exact ⟨by omega, by omega, by trivial⟩
        · obtain ⟨n, hpn, hn1, hn2, hn3⟩ := optHolds_some (h2 q hq)
          simp only [optHolds, hpn]
          exact ⟨hn1, by omega, hn3⟩

theorem register_reverse {s : AliasState} (p : AliasPayload) :
    lookupR (AliasService._register s p).2.reverse (payloadKey p)
      = some (AliasService._register s p).1 := by
  unfold AliasService._register
  cases hr : lookupR s.reverse (payloadKey p) with
  | some a => simp [hr]
  | none => simp [hr, lookupR]

theorem register_alias_bound {s : AliasState} (h : WFAlias s) (p : AliasPayload) :
    ∃ n, 1 ≤ n ∧ n ≤ (AliasService._register s p).2.counter
      ∧ (AliasService._register s p).1 = natStr n := by
  unfold AliasService._register
  cases hr : lookupR s.reverse (payloadKey p) with
  | some a =>
      obtain ⟨n, hpn, hn1, hn2, hn3⟩ := optHolds_some (h.2 _ (lookupR_mem hr))
      exact ⟨n, hn1, by simpa [hr] using hn2, by simpa [hr] using hn3⟩
  | none => exact ⟨s.counter + 1, by omega, by simp [hr], by simp [hr]⟩

theorem register_payload {s : AliasState} (h : WFAlias s) (p : AliasPayload) :
    ∃ p', lookupA (AliasService._register s p).2.aliases (AliasService._register s p).1
        = some p' ∧ payloadKey p' = payloadKey p := by
  unfold AliasService._register
  cases hr : lookupR s.reverse (payloadKey p) with
  | some a =>
      have hmem := lookupR_mem hr
      obtain ⟨p', hl, hk⟩ := optHolds_some (h.1 _ hmem)
      exact ⟨p', by simpa [hr] using hl, hk⟩
  | none => exact ⟨p, by simp [hr, lookupA], rfl⟩

theorem register_found {s : AliasState} {p : AliasPayload} {a : String}
    (h : lookupR s.reverse (payloadKey p) = some a) :
    AliasService._register s p = (a, s) := by
  unfold AliasService._register
  simp [h]

theorem register_not_found {s : AliasState} {p : AliasPayload}
    (h : lookupR s.reverse (payloadKey p) = none) :
    AliasService._register s p = (natStr (s.counter + 1),
      { counter := s.counter + 1
        aliases := (natStr (s.counter + 1), p) :: s.aliases
        reverse := (payloadKey p, natStr (s.counter + 1)) :: s.reverse }) := by
  unfold AliasService._register
  simp [h]

theorem WF_key_unique {s : AliasState} (h : WFAlias s) {k1 k2 : PayloadKey} {a : String}
    (h1 : (k1, a) ∈ s.reverse) (h2 : (k2, a) ∈ s.reverse) : k1 = k2 := by
  obtain ⟨q1, hl1, hk1⟩ := optHolds_some (h.1 _ h1)
  obtain ⟨q2, hl2, hk2⟩ := optHolds_some (h.1 _ h2)
  rw [hl1] at hl2
  cases hl2
  exact hk1.symm.trans hk2

/-- Claim C1: within one session, `_register` is idempotent under the dedup key
(same type and identifying fields, with `access_role` on calendars and
`readonly` on events ignored by `_payload_key`): the second registration
returns the same alias and leaves the state, including the counter,
unchanged; payloads with distinct dedup keys receive distinct aliases. -/
theorem claim_C1 (s0 : AliasState) (h : WFAlias s0) (p1 p2 : AliasPayload) :
    (∀ cid r1 r2, payloadKey (.calendar cid r1) = payloadKey (.calendar cid r2)) ∧
    (∀ eid cid b1 b2, payloadKey (.event eid cid b1) = payloadKey (.event eid cid b2)) ∧
    (payloadKey p1 = payloadKey p2 →
      AliasService._register (AliasService._register s0 p1).2 p2
        = ((AliasService._register s0 p1).1, (AliasService._register s0 p1).2)) ∧
    (payloadKey p1 ≠ payloadKey p2 →
      (AliasService._register (AliasService._register s0 p1).2 p2).1
        ≠ (AliasService._register s0 p1).1) := by
  refine ⟨fun _ _ _ => rfl, fun _ _ _ _ => rfl, ?_, ?_⟩
  · intro hkey
    have hrev := register_reverse (s := s0) p1
    rw [hkey] at hrev
    exact register_found hrev
  · intro hkey
    have hWF1 : WFAlias (AliasService._register s0 p1).2 := register_WF h p1
    have hrev := register_reverse (s := s0) p1
    cases hr2 : lookupR (AliasService._register s0 p1).2.reverse (payloadKey p2) with
    | some a2 =>
        rw [register_found hr2]
        intro hcontra
        simp only at hcontra
        subst hcontra
        exact hkey (WF_key_unique hWF1 (lookupR_mem hrev) (lookupR_mem hr2))
    | none =>
        obtain ⟨n, hn1, hn2, hn3⟩ := register_alias_bound h p1
        rw [register_not_found hr2, hn3]
        show natStr _ ≠ natStr n
        intro hcontra
        have := natStr_injective hcontra
        omega

/-- Claim C2: resolving the alias returned by a registration against the
post-registration state yields the registered resource's real identifying
fields, for each of the four resource types (the registered access role,
readonly flag, supplied task-list alias and supplied default calendar do not
affect the result). -/
theorem claim_C2 (s : AliasState) (h : WFAlias s) :
    (∀ cid role,
        AliasService.resolve_calendar (AliasService.register_calendar s cid role).2
          (AliasService.register_calendar s cid role).1 = cid) ∧
    (∀ lid,
        AliasService.resolve_task_list (AliasService.register_task_list s lid).2
          (AliasService.register_task_list s lid).1 = lid) ∧
    (∀ l lid tid,
        AliasService.resolve_task (AliasService.register_task s lid tid).2 l
          (AliasService.register_task s lid tid).1 = (lid, tid)) ∧
    (∀ d eid cid ro,
        AliasService.resolve_event (AliasService.register_event s eid cid ro).2
          (AliasService.register_event s eid cid ro).1 d = (cid, eid)) := by
  refine ⟨?_, ?_, ?_, ?_⟩
  · intro cid role
    obtain ⟨p', hl, hk⟩ := register_payload h (.calendar cid role)
    cases p' with
    | calendar c r =>
        simp only [payloadKey, PayloadKey.calendar.injEq] at hk
        subst hk
        simp [AliasService.resolve_calendar, AliasService._payload,
          AliasService.register_calendar, hl]
    | task_list _ => simp [payloadKey] at hk
    | task _ _ => simp [payloadKey] at hk
    | event _ _ _ => simp [payloadKey] at hk
  · intro lid
    obtain ⟨p', hl, hk⟩ := register_payload h (.task_list lid)
    cases p' with
    | task_list x =>
        simp only [payloadKey, PayloadKey.task_list.injEq] at hk
        subst hk
        simp [AliasService.resolve_task_list, AliasService._payload,
          AliasService.register_task_list, hl]
    | calendar _ _ => simp [payloadKey] at hk
    | task _ _ => simp [payloadKey] at hk
    | event _ _ _ => simp [payloadKey] at hk
  · intro l lid tid
    obtain ⟨p', hl, hk⟩ := register_payload h (.task lid tid)
    cases p' with
    | task x y =>
        simp only [payloadKey, PayloadKey.task.injEq] at hk
        obtain ⟨hk1, hk2⟩ := hk
        subst hk1; subst hk2
        simp [AliasService.resolve_task, AliasService._payload,
          AliasService.register_task, hl]
    | calendar _ _ => simp [payloadKey] at hk
    | task_list _ => simp [payloadKey] at hk
    | event _ _ _ => simp [payloadKey] at hk
  · intro d eid cid ro
    obtain ⟨p', hl, hk⟩ := register_payload h (.event eid cid ro)
    cases p' with
    | event e c b =>
        simp only [payloadKey, PayloadKey.event.injEq] at hk
        obtain ⟨hk1, hk2⟩ := hk
        subst hk1; subst hk2
        simp [AliasService.resolve_event, AliasService._payload,
          AliasService.register_event, hl]
    | calendar _ _ => simp [payloadKey] at hk
    | task_list _ => simp [payloadKey] at hk
    | task _ _ => simp [payloadKey] at hk

/-- Claim C3: on an alias string that is unknown to the session's alias table,
or whose stored payload has a type other than the resolver's, every resolver
degrades to passthrough: `resolve_calendar`/`resolve_task_list` return the
input, `resolve_task` pairs the resolved list alias with the input, and
`resolve_event` pairs the supplied default calendar with the input.  All four
resolvers are total functions — no resolution ever signals an error. -/
theorem claim_C3 (s : AliasState) :
    (∀ x, (∀ p, AliasService._payload s x = some p → p.typeOf ≠ "calendar") →
        AliasService.resolve_calendar s x = x) ∧
    (∀ x, (∀ p, AliasService._payload s x = some p → p.typeOf ≠ "task_list") →
        AliasService.resolve_task_list s x = x) ∧
    (∀ l x, (∀ p, AliasService._payload s x = some p → p.typeOf ≠ "task") →
        AliasService.resolve_task s l x = (AliasService.resolve_task_list s l, x)) ∧
    (∀ d x, (∀ p, AliasService._payload s x = some p → p.typeOf ≠ "event") →
        AliasService.resolve_event s x d = (d, x)) := by
  refine ⟨?_, ?_, ?_, ?_⟩
  · intro x hx
    unfold AliasService.resolve_calendar
    cases hp : AliasService._payload s x with
    | none => rfl
    | some p =>
        cases p with
        | calendar c r => exact absurd rfl (hx _ hp)
        | task_list _ => rfl
        | task _ _ => rfl
        | event _ _ _ => rfl
  · intro x hx
    unfold AliasService.resolve_task_list
    cases hp : AliasService._payload s x with
    | none => rfl
    | some p =>
        cases p with
        | task_list _ => exact absurd rfl (hx _ hp)
        | calendar _ _ => rfl
        | task _ _ => rfl
        | event _ _ _ => rfl
  · intro l x hx
    unfold AliasService.resolve_task
    cases hp : AliasService._payload s x with
    | none => rfl
    | some p =>
        cases p with
        | task _ _ => exact absurd rfl (hx _ hp)
        | calendar _ _ => rfl
        | task_list _ => rfl
        | event _ _ _ => rfl
  · intro d x hx
    unfold AliasService.resolve_event
    cases hp : AliasService._payload s x with
    | none => rfl
    | some p =>
        cases p with
        | event _ _ _ => exact absurd rfl (hx _ hp)
        | calendar _ _ => rfl
        | task_list _ => rfl
        | task _ _ => rfl

/-- Witness for C1 at a fresh session state: registering `cal-a` with role
`owner` and again with no role yields the same alias, while `cal-b` yields a
different alias. -/
theorem claim_C1_witness :
    WFAlias AliasState.reset ∧
    (AliasService._register
        (AliasService._register AliasState.reset (.calendar "cal-a" (some "owner"))).2
        (.calendar "cal-a" none)).1
      = (AliasService._register AliasState.reset (.calendar "cal-a" (some "owner"))).1 ∧
    (AliasService._register
        (AliasService._register AliasState.reset (.calendar "cal-a" (some "owner"))).2
        (.calendar "cal-b" none)).1
      ≠ (AliasService._register AliasState.reset (.calendar "cal-a" (some "owner"))).1 := by
  refine ⟨by decide, ?_, ?_⟩
  · exact congrArg Prod.fst
      ((claim_C1 AliasState.reset (by decide) (.calendar "cal-a" (some "owner"))
        (.calendar "cal-a" none)).2.2.1 (by decide))
  · exact (claim_C1 AliasState.reset (by decide) (.calendar "cal-a" (some "owner"))
      (.calendar "cal-b" none)).2.2.2 (by decide)

/-- Witness for C2 at a fresh session state, one round trip per resource type. -/
theorem claim_C2_witness :
    AliasService.resolve_calendar
        (AliasService.register_calendar AliasState.reset "cal-a" (some "owner")).2
        (AliasService.register_calendar AliasState.reset "cal-a" (some "owner")).1
      = "cal-a" ∧
    AliasService.resolve_task_list
        (AliasService.register_task_list AliasState.reset "list-1").2
        (AliasService.register_task_list AliasState.reset "list-1").1
      = "list-1" ∧
    AliasService.resolve_task
        (AliasService.register_task AliasState.reset "list-1" "task-9").2
        "unrelated-list-alias"
        (AliasService.register_task AliasState.reset "list-1" "task-9").1
      = ("list-1", "task-9") ∧
    AliasService.resolve_event
        (AliasService.register_event AliasState.reset "ev-1" "cal-a" true).2
        (AliasService.register_event AliasState.reset "ev-1" "cal-a" true).1
        "fallback-calendar"
      = ("cal-a", "ev-1") :=
  ⟨(claim_C2 AliasState.reset (by decide)).1 "cal-a" (some "owner"),
   (claim_C2 AliasState.reset (by decide)).2.1 "list-1",
   (claim_C2 AliasState.reset (by decide)).2.2.1 "unrelated-list-alias" "list-1" "task-9",
   (claim_C2 AliasState.reset (by decide)).2.2.2 "fallback-calendar" "ev-1" "cal-a" true⟩

/-- Witness for C3: on a fresh session state, resolving the string
`some-real-id-never-registered` passes it through unchanged in all four
resolvers. -/
theorem claim_C3_witness :
    AliasService.resolve_calendar AliasState.reset "some-real-id-never-registered"
      = "some-real-id-never-registered" ∧
    AliasService.resolve_task_list AliasState.reset "some-real-id-never-registered"
      = "some-real-id-never-registered" ∧
    AliasService.resolve_task AliasState.reset "raw-list" "some-real-id-never-registered"
      = (AliasService.resolve_task_list AliasState.reset "raw-list",
         "some-real-id-never-registered") ∧
    AliasService.resolve_event AliasState.reset "some-real-id-never-registered" "primary"
      = ("primary", "some-real-id-never-registered") := by
  have hnone : ∀ x : String, AliasService._payload AliasState.reset x = none := by
    intro x; rfl
  refine ⟨?_, ?_, ?_, ?_⟩
  · exact (claim_C3 AliasState.reset).1 _ (by intro p hp; rw [hnone] at hp; cases hp)
  · exact (claim_C3 AliasState.reset).2.1 _ (by intro p hp; rw [hnone] at hp; cases hp)
  · exact (claim_C3 AliasState.reset).2.2.1 _ _ (by intro p hp; rw [hnone] at hp; cases hp)
  · exact (claim_C3 AliasState.reset).2.2.2 _ _ (by intro p hp; rw [hnone] at hp; cases hp)

/-! ### Python string primitives

`str.strip`, `str.lower` and `str.replace(" ", "_")` as used by
`reminder_serialization._coerce_string` and `ReminderService._require_trigger`,
modelled on the character list underlying the string. -/

/-- The characters Python's `str.strip()` removes: exactly those for which
`str.isspace()` holds (Unicode categories Zs/Zl/Zp and bidirectional classes
WS/B/S): code points 9-13 (tab, newline, vertical tab, form feed, carriage
return), 28-32 (file/group/record/unit separators and space), 0x85 (NEL),
0xa0 (no-break space), 0x1680 (Ogham space mark), 0x2000-0x200a (en quad
through hair space), 0x2028 (line separator), 0x2029 (paragraph separator),
0x202f (narrow no-break space), 0x205f (medium mathematical space) and
0x3000 (ideographic space). -/
def pySpace (c : Char) : Bool :=
  (9 ≤ c.toNat ∧ c.toNat ≤ 13) ∨ (28 ≤ c.toNat ∧ c.toNat ≤ 32) ∨
  c.toNat = 0x85 ∨ c.toNat = 0xa0 ∨ c.toNat = 0x1680 ∨
  (0x2000 ≤ c.toNat ∧ c.toNat ≤ 0x200a) ∨ c.toNat = 0x2028 ∨ c.toNat = 0x2029 ∨
  c.toNat = 0x202f ∨ c.toNat = 0x205f ∨ c.toNat = 0x3000

def pyStrip (s : String) : String :=
  ⟨((s.data.dropWhile pySpace).reverse.dropWhile pySpace).reverse⟩

def asciiLower (c : Char) : Char :=
  if 65 ≤ c.toNat ∧ c.toNat ≤ 90 then Char.ofNat (c.toNat + 32) else c

def pyLower (s : String) : String := ⟨s.data.map asciiLower⟩

def pyReplaceSpace (s : String) : String :=
  ⟨s.data.map (fun c => if c = ' ' then '_' else c)⟩

/-- Python `a or b` on an optional string operand: the left operand wins when
it is truthy (a non-`None`, non-empty string). -/
def pyOrStr (a : Option String) (b : String) : String :=
  match a with
  | some s => if s ≠ "" then s else b
  | none => b

/-! ### JSON values and timestamps

The store file always goes through `json.loads` before `_load` reads it and
through `json.dumps` after `_persist` builds it, and those are exact inverses
on JSON-representable trees, so persistence is modelled at the level of parsed
JSON values.  `PyTime` models the timezone-aware datetimes produced by
`utils.now()` (microseconds since the epoch); `isoformat`/`fromisoformat` is
their round-trippable text form, modelled as the decimal numeral with its
parser — exactly an inverse pair, as the library pair is on aware datetimes. -/

inductive JVal where
  | null
  | bool (b : Bool)
  | num (n : Int)
  | str (s : String)
  | arr (items : List JVal)
  | obj (fields : List (String × JVal))

def lookupKV {α : Type} : List (String × α) → String → Option α
  | [], _ => none
  | (k, v) :: rest, key => if k = key then some v else lookupKV rest key

def intStr : Int → String
  | .ofNat n => natStr n
  | .negSucc n => "-" ++ natStr (n + 1)

mutual
/-- Python `repr` of a JSON-decoded value.  The rendering of nested containers
abstracts away quoting/escaping details; no theorem depends on it. -/
def jRepr : JVal → String
  | .null => "None"
  | .bool true => "True"
  | .bool false => "False"
  | .num n => intStr n
  | .str s => "'" ++ s ++ "'"
  | .arr items => "[" ++ jReprList items ++ "]"
  | .obj fields => "\x7b" ++ jReprFields fields ++ "\x7d"

def jReprList : List JVal → String
  | [] => ""
  | [x] => jRepr x
  | x :: xs => jRepr x ++ ", " ++ jReprList xs

def jReprFields : List (String × JVal) → String
  | [] => ""
  | [(k, v)] => "'" ++ k ++ "': " ++ jRepr v
  | (k, v) :: xs => "'" ++ k ++ "': " ++ jRepr v ++ ", " ++ jReprFields xs
end

/-- Python `str(value)` of a JSON-decoded value. -/
def pyStrOf : JVal → String
  | .str s => s
  | v => jRepr v

abbrev PyTime := Nat

def isoformat (t : PyTime) : String := natStr t

def fromisoformat (s : String) : Option PyTime := parseDec s

theorem fromisoformat_isoformat (t : PyTime) : fromisoformat (isoformat t) = some t :=
  parseDec_natStr t

/-! ### TriggerReminder and its serialization
(`backend/app/models.py`, `reminder_serialization.py`) -/

structure TriggerReminder where
  id : String
  text : String
  trigger_type : String
  status : String
  created_at : PyTime
  fired_at : Option PyTime := none
  google_task_id : Option String := none
  google_task_alias : Option String := none
  task_list_id : Option String := none
  task_error : Option String := none
deriving DecidableEq, Repr

def optStrJ : Option String → JVal
  | none => .null
  | some s => .str s

def optTimeJ : Option PyTime → JVal
  | none => .null
  | some t => .str (isoformat t)

/-- Embeds `serialize_reminder`: `asdict` (fields in dataclass order) with datetimes
rendered by `isoformat`; `None` becomes JSON null. -/
def serialize_reminder (r : TriggerReminder) : List (String × JVal) :=
  [("id", .str r.id),
   ("text", .str r.text),
   ("trigger_type", .str r.trigger_type),
   ("status", .str r.status),
   ("created_at", .str (isoformat r.created_at)),
   ("fired_at", optTimeJ r.fired_at),
   ("google_task_id", optStrJ r.google_task_id),
   ("google_task_alias", optStrJ r.google_task_alias),
   ("task_list_id", optStrJ r.task_list_id),
   ("task_error", optStrJ r.task_error)]

/-- Embeds `_coerce_string` applied to `raw.get(key)`: `none` models both an absent
key and JSON null (Python `None`); a string with non-whitespace content is
stripped, any other string is returned as is, and non-string values go through
`str(value)`. -/
def _coerce_string : Option JVal → Option String
  | none => none
  | some .null => none
  | some (.str s) => some (if pyStrip s ≠ "" then pyStrip s else s)
  | some v => some (pyStrOf v)

/-- Embeds `_parse_datetime` applied to `raw.get(key)`: only strings are parsed (the
`isinstance(value, datetime)` arm can never fire on JSON input), and parse
failures become `None`. -/
def _parse_datetime : Option JVal → Option PyTime
  | some (.str s) => fromisoformat s
  | _ => none

/-- Embeds `deserialize_reminder`.  It never raises on JSON input: `_coerce_string`
and `_parse_datetime` are total, so `_decode`'s `except` arm is dead there. -/
def deserialize_reminder (tNow : PyTime) (raw : List (String × JVal)) : TriggerReminder :=
  { id := pyOrStr (_coerce_string (lookupKV raw "id"))
      (pyOrStr (_coerce_string (lookupKV raw "uid")) "")
    text := pyOrStr (_coerce_string (lookupKV raw "text")) ""
    trigger_type := pyOrStr (_coerce_string (lookupKV raw "trigger_type")) ""
    status := pyOrStr (_coerce_string (lookupKV raw "status")) "pending"
    created_at := (_parse_datetime (lookupKV raw "created_at")).getD tNow
    fired_at := _parse_datetime (lookupKV raw "fired_at")
    google_task_id := _coerce_string (lookupKV raw "google_task_id")
    google_task_alias := _coerce_string (lookupKV raw "google_task_alias")
    task_list_id := _coerce_string (lookupKV raw "task_list_id")
    task_error := _coerce_string (lookupKV raw "task_error") }

/-! ### PersistentReminderStore (`backend/app/persistent_reminder_store.py`)

The in-memory mirror `_data` is an association list from owner key to reminder
list; `all` hands out value copies (value semantics make `deepcopy` the
identity), and every mutation rewrites the whole file from the mirror. -/

abbrev StoreData := List (String × List TriggerReminder)

def updateEntry : StoreData → String → List TriggerReminder → StoreData
  | [], owner, l => [(owner, l)]
  | (k, v) :: rest, owner, l =>
      if k = owner then (owner, l) :: rest else (k, v) :: updateEntry rest owner l

namespace PersistentReminderStore

def all (d : StoreData) (owner : String) : List TriggerReminder :=
  (lookupKV d owner).getD []

def append (d : StoreData) (owner : String) (r : TriggerReminder) : StoreData :=
  updateEntry d owner (all d owner ++ [r])

def mutate {T : Type} (d : StoreData) (owner : String)
    (mutator : List TriggerReminder → List TriggerReminder × T) : StoreData × T :=
  let res := mutator (all d owner)
  (updateEntry d owner res.1, res.2)

/-- Embeds `_persist`: the JSON value written to the file,
`{"owners": {ownerKey: [reminderRecord, …]}}`. -/
def _persist (d : StoreData) : JVal :=
  .obj [("owners",
    .obj (d.map (fun e => (e.1, .arr (e.2.map (fun r => .obj (serialize_reminder r)))))))]

end PersistentReminderStore

/-- What `Path.read_text` + `json.loads` can produce for the store file. -/
inductive FileContent where
  | missing
  | unreadable
  | badJson
  | parsed (v : JVal)

/-- The record loop of `_load`: non-mapping records are skipped; mapping
records always decode (see `deserialize_reminder`). -/
def decodeItems (tNow : PyTime) : List JVal → List TriggerReminder
  | [] => []
  | .obj raw :: rest => deserialize_reminder tNow raw :: decodeItems tNow rest
  | _ :: rest => decodeItems tNow rest

/-- The owner loop of `_load`: JSON object keys are always strings, so the
`isinstance(owner, str)` guard never skips; non-list owner values are skipped;
owners whose records all fail to decode are not inserted. -/
def loadOwners (tNow : PyTime) : List (String × JVal) → StoreData
  | [] => []
  | (owner, .arr raw_items) :: rest =>
      let parsed := decodeItems tNow raw_items
      if parsed ≠ [] then (owner, parsed) :: loadOwners tNow rest
      else loadOwners tNow rest
  | _ :: rest => loadOwners tNow rest

/-- Embeds `PersistentReminderStore._load` (run by the constructor).  A missing file,
an unreadable file (`OSError`) and undecodable JSON (`JSONDecodeError`) leave
the store empty; a JSON document that is not an object reaches
`payload.get("owners")` on a non-dict and raises `AttributeError`, which
neither `except` clause catches — modelled as `Except.error`. -/
def _load (tNow : PyTime) : FileContent → Except String StoreData
  | .missing => .ok []
  | .unreadable => .ok []
  | .badJson => .ok []
  | .parsed (.obj kvs) =>
      match lookupKV kvs "owners" with
      | some (.obj owners) => .ok (loadOwners tNow owners)
      | _ => .ok []
  | .parsed _ => .error "AttributeError: object has no attribute get"

/-! ### ReminderService (`backend/app/reminders.py`)

The external side effect `_create_google_task` (Google connection, task-list
prefetch, task creation) is abstracted as an oracle mapping each reminder to
either a created-task outcome or the message of the exception raised; the
service itself never lets that exception escape the per-reminder handler. -/

structure TaskOutcome where
  task_id : Option String
  task_alias : Option String
  task_list_id : Option String
deriving DecidableEq, Repr

structure UserProfile where
  id : String
  email : String
  name : Option String := none
deriving DecidableEq, Repr

namespace ReminderService

def _owner_key (session_id : String) (session_user : Option UserProfile) : String :=
  match session_user with
  | some u => if u.id ≠ "" then u.id else session_id
  | none => session_id

def VALID_TRIGGERS : List String := ["enter_car", "exit_car"]

def _require_trigger (raw : String) : Except String String :=
  if pyStrip raw ≠ "" then
    let normalized0 := pyReplaceSpace (pyLower (pyStrip raw))
    let normalized1 :=
      if normalized0 ∈ ["enter", "entering_car", "in_car"] then "enter_car" else normalized0
    let normalized2 :=
      if normalized1 ∈ ["exit", "leaving_car", "out_car", "out_of_car"] then "exit_car"
      else normalized1
    if normalized2 ∈ VALID_TRIGGERS then .ok normalized2
    else .error "Invalid trigger_type. Supported: enter_car, exit_car"
  else .error "Invalid trigger_type. Supported: enter_car, exit_car"

def matchesTrigger (normalized_trigger : String) (r : TriggerReminder) : Bool :=
  r.trigger_type == normalized_trigger && r.status == "pending"

/-- The body of `_trigger_reminders`' loop for one matching reminder: the
status transition happens before the side-effect attempt, so it stands even
when task creation fails, and the failure is recorded in `task_error`. -/
def triggerOne (outcome : Except String TaskOutcome) (tNow : PyTime)
    (r : TriggerReminder) : TriggerReminder :=
  let r1 := { r with status := "fired", fired_at := some tNow }
  match outcome with
  | .ok o =>
      { r1 with
        google_task_id := o.task_id
        google_task_alias := o.task_alias
        task_list_id := o.task_list_id
        task_error := none }
  | .error exc => { r1 with task_error := some exc }

def _trigger_reminders (env : TriggerReminder → Except String TaskOutcome)
    (tNow : PyTime) (normalized_trigger : String) :
    List TriggerReminder → List TriggerReminder × List TriggerReminder
  | [] => ([], [])
  | r :: rest =>
      let others := _trigger_reminders env tNow normalized_trigger rest
      if matchesTrigger normalized_trigger r then
        let r' := triggerOne (env r) tNow r
        (r' :: others.1, r' :: others.2)
      else
        (r :: others.1, others.2)

/-- Embeds `ReminderService.fire`: validate the trigger, then transition all matching
pending reminders of the owner in one locked `mutate`, returning the
transitioned reminders (the HTTP layer then serializes them). -/
def fire (env : TriggerReminder → Except String TaskOutcome) (tNow : PyTime)
    (session_id : String) (session_user : Option UserProfile) (trigger_type : String)
    (d : StoreData) : Except String (StoreData × List TriggerReminder) :=
  match _require_trigger trigger_type with
  | .error e => .error e
  | .ok normalized_trigger =>
      .ok (PersistentReminderStore.mutate d (_owner_key session_id session_user)
        (_trigger_reminders env tNow normalized_trigger))

end ReminderService

/-! ### Store lemmas -/

theorem lookupKV_updateEntry_self (d : StoreData) (o : String) (v : List TriggerReminder) :
    lookupKV (updateEntry d o v) o = some v := by
  induction d with
  | nil => simp [updateEntry, lookupKV]
  | cons e rest ih =>
      obtain ⟨k, w⟩ := e
      by_cases hk : k = o
      · simp [updateEntry, hk, lookupKV]
      · simp [updateEntry, hk, lookupKV, ih]

theorem lookupKV_updateEntry_other (d : StoreData) (o k : String)
    (v : List TriggerReminder) (h : o ≠ k) :
    lookupKV (updateEntry d o v) k = lookupKV d k := by
  induction d with
  | nil => simp [updateEntry, lookupKV, h]
  | cons e rest ih =>
      obtain ⟨k', w⟩ := e
      by_cases hk : k' = o
      · subst hk
        simp [updateEntry, lookupKV, h]
      · by_cases hkk : k' = k
        · subst hkk
          simp [updateEntry, hk, lookupKV]
        · simp [updateEntry, hk, lookupKV, hkk, ih]

theorem updateEntry_self {d : StoreData} {o : String} {v : List TriggerReminder}
    (h : lookupKV d o = some v) : updateEntry d o v = d := by
  induction d with
  | nil => simp [lookupKV] at h
  | cons e rest ih =>
      obtain ⟨k, w⟩ := e
      by_cases hk : k = o
      · subst hk
        simp [lookupKV] at h
        simp [updateEntry, h]
      · simp [lookupKV, hk] at h
        simp [updateEntry, hk, ih h]

/-! ### Trigger lemmas -/

theorem trigger_spec (env : TriggerReminder → Except String TaskOutcome)
    (tNow : PyTime) (nt : String) (l : List TriggerReminder) :
    ReminderService._trigger_reminders env tNow nt l
      = (l.map (fun r => if ReminderService.matchesTrigger nt r
            then ReminderService.triggerOne (env r) tNow r else r),
         (l.filter (ReminderService.matchesTrigger nt)).map
            (fun r => ReminderService.triggerOne (env r) tNow r)) := by
  induction l with
  | nil => rfl
  | cons r rest ih =>
      simp only [ReminderService._trigger_reminders, ih]
      by_cases hm : ReminderService.matchesTrigger nt r <;>
        simp [hm, List.filter_cons]

theorem triggerOne_status (outcome : Except String TaskOutcome) (tNow : PyTime)
    (r : TriggerReminder) :
    (ReminderService.triggerOne outcome tNow r).status = "fired" ∧
    (ReminderService.triggerOne outcome tNow r).fired_at = some tNow := by
  cases outcome <;> simp [ReminderService.triggerOne]

theorem triggerOne_error (msg : String) (tNow : PyTime) (r : TriggerReminder) :
    ReminderService.triggerOne (.error msg) tNow r
      = { r with status := "fired", fired_at := some tNow, task_error := some msg } := rfl

theorem matchesTrigger_after (env : TriggerReminder → Except String TaskOutcome)
    (tNow : PyTime) (nt : String) (r : TriggerReminder) :
    ReminderService.matchesTrigger nt
      (if ReminderService.matchesTrigger nt r
        then ReminderService.triggerOne (env r) tNow r else r) = false := by
  by_cases hm : ReminderService.matchesTrigger nt r
  · rw [if_pos hm]
    cases henv : env r <;>
      simp [ReminderService.triggerOne, ReminderService.matchesTrigger]
  · rw [if_neg hm]
    simpa using hm

/-- A `fire`-style mutation over a list with no matching pending reminder
transitions nothing and leaves the store unchanged. -/
theorem fire_twice (env2 : TriggerReminder → Except String TaskOutcome)
    (tNow2 : PyTime) (nt : String) (d' : StoreData) (owner : String)
    (L : List TriggerReminder) (hL : lookupKV d' owner = some L)
    (hno : ∀ x ∈ L, ReminderService.matchesTrigger nt x = false) :
    PersistentReminderStore.mutate d' owner
      (ReminderService._trigger_reminders env2 tNow2 nt) = (d', []) := by
  unfold PersistentReminderStore.mutate
  rw [trigger_spec]
  have hall : PersistentReminderStore.all d' owner = L := by
    unfold PersistentReminderStore.all
    rw [hL]
    rfl
  rw [hall]
  have hmap : L.map (fun r => if ReminderService.matchesTrigger nt r
      then ReminderService.triggerOne (env2 r) tNow2 r else r) = L := by
    have h2 : L.map (fun r => if ReminderService.matchesTrigger nt r
        then ReminderService.triggerOne (env2 r) tNow2 r else r) = L.map id :=
      List.map_congr_left (fun a ha => by simp [hno a ha])
    rw [h2, List.map_id]
  have hfil : L.filter (ReminderService.matchesTrigger nt) = [] :=
    List.filter_eq_nil_iff.mpr (fun a ha => by simp [hno a ha])
  rw [hmap, hfil]
  simp [updateEntry_self hL]

/-- Claim C4: for every owner and valid trigger, `fire` transitions exactly
the owner's pending reminders whose `trigger_type` matches (others, including
already-fired ones, are left untouched) and returns exactly those; each
transitioned reminder ends with status `fired` and `fired_at` set; a failing
task-creation side effect does not block the transition, its message landing
in `task_error`; and an immediately repeated `fire` with the same trigger
fires zero additional reminders and leaves the store unchanged. -/
theorem claim_C4 (env env2 : TriggerReminder → Except String TaskOutcome)
    (tNow tNow2 : PyTime) (sid : String) (user : Option UserProfile)
    (raw ntrig : String) (d : StoreData)
    (h : ReminderService._require_trigger raw = .ok ntrig) :
    ReminderService.fire env tNow sid user raw d
      = .ok (updateEntry d (ReminderService._owner_key sid user)
          ((PersistentReminderStore.all d (ReminderService._owner_key sid user)).map
            (fun r => if ReminderService.matchesTrigger ntrig r
              then ReminderService.triggerOne (env r) tNow r else r)),
        ((PersistentReminderStore.all d (ReminderService._owner_key sid user)).filter
            (ReminderService.matchesTrigger ntrig)).map
          (fun r => ReminderService.triggerOne (env r) tNow r)) ∧
    (∀ outcome r, (ReminderService.triggerOne outcome tNow r).status = "fired" ∧
        (ReminderService.triggerOne outcome tNow r).fired_at = some tNow) ∧
    (∀ msg r, ReminderService.triggerOne (.error msg) tNow r
        = { r with status := "fired", fired_at := some tNow, task_error := some msg }) ∧
    ReminderService.fire env2 tNow2 sid user raw
        (updateEntry d (ReminderService._owner_key sid user)
          ((PersistentReminderStore.all d (ReminderService._owner_key sid user)).map
            (fun r => if ReminderService.matchesTrigger ntrig r
              then ReminderService.triggerOne (env r) tNow r else r)))
      = .ok (updateEntry d (ReminderService._owner_key sid user)
          ((PersistentReminderStore.all d (ReminderService._owner_key sid user)).map
            (fun r => if ReminderService.matchesTrigger ntrig r
              then ReminderService.triggerOne (env r) tNow r else r)), []) := by
  refine ⟨?_, fun outcome r => triggerOne_status outcome tNow r,
    fun msg r => triggerOne_error msg tNow r, ?_⟩
  · simp only [ReminderService.fire, h, PersistentReminderStore.mutate, trigger_spec]
  · have hno : ∀ x ∈ (PersistentReminderStore.all d
        (ReminderService._owner_key sid user)).map
          (fun r => if ReminderService.matchesTrigger ntrig r
            then ReminderService.triggerOne (env r) tNow r else r),
        ReminderService.matchesTrigger ntrig x = false := by
      intro x hx
      obtain ⟨r, _, hr⟩ := List.mem_map.mp hx
      rw [← hr]
      exact matchesTrigger_after env tNow ntrig r
    simp only [ReminderService.fire, h]
    rw [fire_twice env2 tNow2 ntrig _ _ _ (lookupKV_updateEntry_self d _ _) hno]

/-- Witness for C4: an unauthenticated session `sess-1` holds a pending
`exit_car` reminder, a pending `enter_car` reminder and an already-fired
`exit_car` reminder; firing `exit_car` while task creation fails transitions
exactly the first reminder, recording the error. -/
theorem claim_C4_witness :
    (let r1 : TriggerReminder :=
       { id := "r1", text := "buy milk", trigger_type := "exit_car",
         status := "pending", created_at := 1 }
     let r2 : TriggerReminder :=
       { id := "r2", text := "call mom", trigger_type := "enter_car",
         status := "pending", created_at := 2 }
     let r3 : TriggerReminder :=
       { id := "r3", text := "old", trigger_type := "exit_car",
         status := "fired", created_at := 0, fired_at := some 1 }
     let r1' : TriggerReminder :=
       { r1 with
         status := "fired"
         fired_at := some 10
         task_error := some "Google is not connected; task creation skipped." }
     ReminderService.fire
        (fun _ => .error "Google is not connected; task creation skipped.")
        10 "sess-1" none "exit_car" [("sess-1", [r1, r2, r3])]
      = .ok ([("sess-1", [r1', r2, r3])], [r1'])) := by
  intro r1 r2 r3 r1'
  rw [(claim_C4 (fun _ => .error "Google is not connected; task creation skipped.")
    (fun _ => .error "Google is not connected; task creation skipped.")
    10 10 "sess-1" none "exit_car" "exit_car" _ rfl).1]
  rfl

/-! ### C5: persistence round trip -/

/-- A string the loader's `_coerce_string` leaves unchanged: either it equals
its own `strip` or it is all whitespace. -/
def fixedStr (s : String) : Prop := (if pyStrip s ≠ "" then pyStrip s else s) = s

instance (s : String) : Decidable (fixedStr s) := by
  unfold fixedStr; infer_instance

def fixedOpt : Option String → Prop
  | none => True
  | some s => fixedStr s

instance (o : Option String) : Decidable (fixedOpt o) :=
  match o with
  | none => isTrue trivial
  | some s => inferInstanceAs (Decidable (fixedStr s))

/-- Reminders the load path reproduces exactly: every string field is fixed
under `_coerce_string`'s whitespace coercion and the status is non-empty (an
empty status would be replaced by the `"pending"` default). -/
def FixedReminder (r : TriggerReminder) : Prop :=
  fixedStr r.id ∧ fixedStr r.text ∧ fixedStr r.trigger_type ∧
  fixedStr r.status ∧ r.status ≠ "" ∧
  fixedOpt r.google_task_id ∧ fixedOpt r.google_task_alias ∧
  fixedOpt r.task_list_id ∧ fixedOpt r.task_error

instance (r : TriggerReminder) : Decidable (FixedReminder r) := by
  unfold FixedReminder; infer_instance

theorem pyOrStr_self (s : String) : pyOrStr (some s) "" = s := by
  unfold pyOrStr
  by_cases h : s = "" <;> simp [h]

theorem pyOrStr_ne {s : String} (b : String) (h : s ≠ "") : pyOrStr (some s) b = s := by
  simp [pyOrStr, h]

theorem coerce_str_fixed {s : String} (h : fixedStr s) :
    _coerce_string (some (.str s)) = some s := by
  show some (if pyStrip s ≠ "" then pyStrip s else s) = some s
  rw [h]

theorem parse_optTimeJ (o : Option PyTime) : _parse_datetime (some (optTimeJ o)) = o := by
  cases o with
  | none => rfl
  | some t => exact fromisoformat_isoformat t

theorem coerce_optStrJ {o : Option String} (h : fixedOpt o) :
    _coerce_string (some (optStrJ o)) = o := by
  cases o with
  | none => rfl
  | some s => exact coerce_str_fixed h

theorem deserialize_serialize {r : TriggerReminder} (h : FixedReminder r)
    (tNow : PyTime) : deserialize_reminder tNow (serialize_reminder r) = r := by
  obtain ⟨h1, h2, h3, h4, h5, h6, h7, h8, h9⟩ := h
  have hlid : lookupKV (serialize_reminder r) "id" = some (.str r.id) := rfl
  have hluid : lookupKV (serialize_reminder r) "uid" = none := rfl
  have hltext : lookupKV (serialize_reminder r) "text" = some (.str r.text) := rfl
  have hltt : lookupKV (serialize_reminder r) "trigger_type"
      = some (.str r.trigger_type) := rfl
  have hlst : lookupKV (serialize_reminder r) "status" = some (.str r.status) := rfl
  have hlca : lookupKV (serialize_reminder r) "created_at"
      = some (.str (isoformat r.created_at)) := rfl
  have hlfa : lookupKV (serialize_reminder r) "fired_at" = some (optTimeJ r.fired_at) := rfl
  have hlgti : lookupKV (serialize_reminder r) "google_task_id"
      = some (optStrJ r.google_task_id) := rfl
  have hlgta : lookupKV (serialize_reminder r) "google_task_alias"
      = some (optStrJ r.google_task_alias) := rfl
  have hltli : lookupKV (serialize_reminder r) "task_list_id"
      = some (optStrJ r.task_list_id) := rfl
  have hlte : lookupKV (serialize_reminder r) "task_error"
      = some (optStrJ r.task_error) := rfl
  unfold deserialize_reminder
  rw [hlid, hluid, hltext, hltt, hlst, hlca, hlfa, hlgti, hlgta, hltli, hlte]
  rw [coerce_str_fixed h1, coerce_str_fixed h2, coerce_str_fixed h3,
    coerce_str_fixed h4, parse_optTimeJ, coerce_optStrJ h6, coerce_optStrJ h7,
    coerce_optStrJ h8, coerce_optStrJ h9]
  have hca : (_parse_datetime (some (.str (isoformat r.created_at)))).getD tNow
      = r.created_at := by
    show (fromisoformat (isoformat r.created_at)).getD tNow = r.created_at
    rw [fromisoformat_isoformat]
    rfl
  rw [hca]
  have hid : pyOrStr (some r.id) (pyOrStr (_coerce_string none) "") = r.id := by
    have : pyOrStr (_coerce_string none) "" = "" := rfl
    rw [this, pyOrStr_self]
  rw [hid, pyOrStr_self, pyOrStr_self, pyOrStr_ne "pending" h5]

/-- Claim C5 (amended): a reminder written through `append` or through a
`mutate` transform is recovered field-for-field by a fresh store loaded from
the persisted file, provided its string fields are fixed points of the
loader's whitespace coercion and its status is non-empty (timestamps always
round-trip). -/
theorem claim_C5_amended (owner : String) (r : TriggerReminder) (tNow : PyTime)
    (h : FixedReminder r) :
    _load tNow (.parsed (PersistentReminderStore._persist
        (PersistentReminderStore.append [] owner r))) = .ok [(owner, [r])] ∧
    _load tNow (.parsed (PersistentReminderStore._persist
        (PersistentReminderStore.mutate [] owner (fun l => (l ++ [r], ()))).1))
      = .ok [(owner, [r])] ∧
    PersistentReminderStore.all [(owner, [r])] owner = [r] := by
  have happ : PersistentReminderStore.append [] owner r = [(owner, [r])] := rfl
  have hmut : (PersistentReminderStore.mutate [] owner (fun l => (l ++ [r], ()))).1
      = [(owner, [r])] := rfl
  have hload : _load tNow (.parsed (PersistentReminderStore._persist [(owner, [r])]))
      = .ok [(owner, [r])] := by
    show _load tNow (.parsed (.obj [("owners",
      .obj [(owner, .arr [.obj (serialize_reminder r)])])])) = .ok [(owner, [r])]
    simp [_load, lookupKV, loadOwners, decodeItems, deserialize_serialize h tNow]
  refine ⟨?_, ?_, ?_⟩
  · rw [happ]; exact hload
  · rw [hmut]; exact hload
  · simp [PersistentReminderStore.all, lookupKV]

/-- Counterexample for C5 as stated: `_coerce_string` strips surrounding
whitespace from non-blank string fields on load, so a reminder appended with
text `" buy milk "` comes back from a fresh load with text `"buy milk"` — not
field-for-field equal. -/
theorem claim_C5_counterexample :
    (let r0 : TriggerReminder :=
       { id := "id-1", text := " buy milk ", trigger_type := "exit_car",
         status := "pending", created_at := 0 }
     _load 0 (.parsed (PersistentReminderStore._persist
        (PersistentReminderStore.append [] "owner-1" r0)))
       = .ok [("owner-1", [{ r0 with text := "buy milk" }])] ∧
     ({ r0 with text := "buy milk" } : TriggerReminder) ≠ r0 ∧
     PersistentReminderStore.all [("owner-1", [{ r0 with text := "buy milk" }])]
        "owner-1" ≠ [r0]) :=
  ⟨rfl, by decide, by decide⟩

/-- Witness for C5 (amended) on a fully populated, whitespace-clean reminder. -/
theorem claim_C5_witness :
    (let rW : TriggerReminder :=
       { id := "id-1", text := "buy milk", trigger_type := "exit_car",
         status := "fired", created_at := 5, fired_at := some 7,
         google_task_id := some "g-1", google_task_alias := some "2",
         task_list_id := some "tl-1", task_error := none }
     FixedReminder rW ∧
     _load 3 (.parsed (PersistentReminderStore._persist
        (PersistentReminderStore.append [] "owner-1" rW))) = .ok [("owner-1", [rW])]) :=
  ⟨by decide, (claim_C5_amended "owner-1" _ 3 (by decide)).1⟩

/-- Claim C6: reminder mutations are owner-local — `append` and `mutate`
under owner A leave `all` for any other owner B unchanged, so B never sees a
reminder scheduled under A — and the owner key used by schedule/list/fire is
the authenticated user's id when one is present (non-empty), else the session
token. -/
theorem claim_C6 {T : Type} (d : StoreData) (A B : String) (r : TriggerReminder)
    (f : List TriggerReminder → List TriggerReminder × T) (h : A ≠ B) :
    PersistentReminderStore.all (PersistentReminderStore.append d A r) B
      = PersistentReminderStore.all d B ∧
    PersistentReminderStore.all (PersistentReminderStore.mutate d A f).1 B
      = PersistentReminderStore.all d B ∧
    (∀ u : UserProfile, u.id ≠ "" → ReminderService._owner_key A (some u) = u.id) ∧
    (∀ u : UserProfile, u.id = "" → ReminderService._owner_key A (some u) = A) ∧
    ReminderService._owner_key A none = A := by
  refine ⟨?_, ?_, ?_, ?_, rfl⟩
  · unfold PersistentReminderStore.all PersistentReminderStore.append
    rw [lookupKV_updateEntry_other _ _ _ _ h]
  · simp only [PersistentReminderStore.mutate]
    unfold PersistentReminderStore.all
    rw [lookupKV_updateEntry_other _ _ _ _ h]
  · intro u hu
    simp [ReminderService._owner_key, hu]
  · intro u hu
    simp [ReminderService._owner_key, hu]

/-- Witness for C6: appending and firing under `alice` does not change what
`bob` sees, and the owner key prefers a non-empty authenticated user id. -/
theorem claim_C6_witness :
    (let rA : TriggerReminder :=
       { id := "ra", text := "a", trigger_type := "exit_car",
         status := "pending", created_at := 0 }
     let rB : TriggerReminder :=
       { id := "rb", text := "b", trigger_type := "exit_car",
         status := "pending", created_at := 0 }
     PersistentReminderStore.all
        (PersistentReminderStore.append [("bob", [rB])] "alice" rA) "bob"
       = PersistentReminderStore.all [("bob", [rB])] "bob" ∧
     PersistentReminderStore.all
        (PersistentReminderStore.mutate [("bob", [rB])] "alice"
          (fun l => (l ++ [rA], 0))).1 "bob"
       = PersistentReminderStore.all [("bob", [rB])] "bob" ∧
     ReminderService._owner_key "sess-1" (some { id := "user-9", email := "u@x" })
       = "user-9" ∧
     ReminderService._owner_key "sess-1" none = "sess-1") := by
  intro rA rB
  exact ⟨(claim_C6 (T := Nat) [("bob", [rB])] "alice" "bob" rA
      (fun l => (l ++ [rA], 0)) (by decide)).1,
    (claim_C6 (T := Nat) [("bob", [rB])] "alice" "bob" rA
      (fun l => (l ++ [rA], 0)) (by decide)).2.1,
    (claim_C6 (T := Nat) [] "sess-1" "other" rA (fun l => (l, 0)) (by decide)).2.2.1
      { id := "user-9", email := "u@x" } (by decide),
    (claim_C6 (T := Nat) [] "sess-1" "other" rA (fun l => (l, 0)) (by decide)).2.2.2.2⟩

/-- Claim C9 (code bug): a missing file, an unreadable file, undecodable JSON,
and JSON objects whose `owners` entry is absent or not a mapping all load as
the empty store (every owner's `all` is empty), and non-mapping reminder
records are skipped rather than failing the load; but a file whose top-level
JSON value is not an object — e.g. the valid JSON text `[]` — makes `_load`
call `.get` on a non-dict, raising an `AttributeError` that neither `except`
clause catches, so the constructor raises instead of starting empty. -/
theorem claim_C9 :
    _load 0 .missing = .ok [] ∧
    _load 0 .unreadable = .ok [] ∧
    _load 0 .badJson = .ok [] ∧
    _load 0 (.parsed (.obj [])) = .ok [] ∧
    _load 0 (.parsed (.obj [("owners", .num 5)])) = .ok [] ∧
    _load 0 (.parsed (.obj [("owners", .null)])) = .ok [] ∧
    _load 0 (.parsed (.obj [("owners", .arr [])])) = .ok [] ∧
    _load 0 (.parsed (.obj [("owners", .obj [("o", .arr [.num 3, .str "x"])])])) = .ok [] ∧
    PersistentReminderStore.all [] "any-owner" = [] ∧
    _load 0 (.parsed (.arr []))
      = .error "AttributeError: object has no attribute get" :=
  ⟨rfl, rfl, rfl, rfl, rfl, rfl, rfl, rfl, rfl, rfl⟩

/-! ### CalendarVisibilityService (`backend/app/calendar_visibility.py`)

The calendar dicts from `GoogleCalendarService.list_calendars` (keys `id`,
`name`, `primary`, `access_role`; `_with_readonly_flag` adds `readonly`) are
embedded as a structure carrying the fields the service reads.  Time is the
same microsecond clock as `PyTime`; each public operation takes the value of
`now()` during the call.  The external calendar source is a call argument
(`listResult`), consulted only on a cache miss. -/

structure Calendar where
  id : String
  name : String := ""
  primary : Bool := false
  access_role : Option String := none
  readonly : Bool := false
deriving DecidableEq, Repr

structure CalendarCache where
  available : List Calendar := []
  available_expires_at : Option PyTime := none
  visible_ids : List String := []
  visible_expires_at : Option PyTime := none
deriving DecidableEq, Repr

namespace CalendarVisibilityService

/-- Thirty minutes, in microseconds. -/
def CALENDAR_LIST_TTL : Nat := 30 * 60 * 1000000

/-- Seven days, in microseconds. -/
def VISIBLE_SELECTION_TTL : Nat := 7 * 24 * 60 * 60 * 1000000

def is_readonly_access (access_role : Option String) : Bool :=
  !(access_role == some "owner" || access_role == some "writer")

def _supports_events (access_role : Option String) : Bool :=
  access_role == some "owner" || access_role == some "writer"
    || access_role == some "reader"

def _with_readonly_flag (c : Calendar) : Calendar :=
  { c with readonly := is_readonly_access c.access_role }

/-- The truthy-and-unexpired test `x and expires_at and expires_at > now()`. -/
def freshOpt (e : Option PyTime) (tNow : PyTime) : Bool :=
  match e with
  | some x => tNow < x
  | none => false

def available_calendars (listResult : List Calendar) (tNow : PyTime)
    (cache : CalendarCache) : List Calendar × CalendarCache :=
  if cache.available ≠ [] ∧ freshOpt cache.available_expires_at tNow then
    (cache.available, cache)
  else
    ((listResult.filter (fun c => _supports_events c.access_role)).map _with_readonly_flag,
     { cache with
       available :=
         (listResult.filter (fun c => _supports_events c.access_role)).map _with_readonly_flag
       available_expires_at := some (tNow + CALENDAR_LIST_TTL) })

def _default_visible_ids (available : List Calendar) : List String :=
  match available.find? (fun c => c.primary) with
  | some primary => [primary.id]
  | none => []

/-- Embeds `list(dict.fromkeys(filtered))`: deduplicate preserving first occurrence. -/
def dedupKeys : List String → List String → List String
  | [], _ => []
  | x :: xs, seen =>
      if seen.contains x then dedupKeys xs seen else x :: dedupKeys xs (x :: seen)

/-- The recompute-defaults arm of `_visible_calendar_ids`: persist the default
selection with a fresh 7-day expiry. -/
def recomputeDefaults (tNow : PyTime) (cache : CalendarCache)
    (available : List Calendar) : List String × CalendarCache :=
  (_default_visible_ids available,
   { cache with
     visible_ids := _default_visible_ids available
     visible_expires_at := some (tNow + VISIBLE_SELECTION_TTL) })

def _visible_calendar_ids (tNow : PyTime) (cache : CalendarCache)
    (available : List Calendar) : List String × CalendarCache :=
  if cache.visible_ids ≠ [] ∧ freshOpt cache.visible_expires_at tNow then
    if cache.visible_ids.filter (fun cid => available.any (fun c => c.id == cid)) ≠ [] then
      (cache.visible_ids.filter (fun cid => available.any (fun c => c.id == cid)), cache)
    else recomputeDefaults tNow cache available
  else recomputeDefaults tNow cache available

def visible_calendars (listResult : List Calendar) (tNow : PyTime)
    (cache : CalendarCache) : List Calendar × CalendarCache :=
  ((available_calendars listResult tNow cache).1.filter
      (fun c => (_visible_calendar_ids tNow (available_calendars listResult tNow cache).2
        (available_calendars listResult tNow cache).1).1.contains c.id),
   (_visible_calendar_ids tNow (available_calendars listResult tNow cache).2
      (available_calendars listResult tNow cache).1).2)

def update_visible_calendars (listResult : List Calendar) (tNow : PyTime)
    (cache : CalendarCache) (calendar_ids : List String) :
    List Calendar × CalendarCache :=
  visible_calendars listResult tNow
    { (available_calendars listResult tNow cache).2 with
      visible_ids := dedupKeys (calendar_ids.filter
        (fun cid => ((available_calendars listResult tNow cache).1.map
          (fun c => c.id)).contains cid)) []
      visible_expires_at := some (tNow + VISIBLE_SELECTION_TTL) }

end CalendarVisibilityService

open CalendarVisibilityService

theorem avail_preserves_visible (lr : List Calendar) (t : PyTime) (c : CalendarCache) :
    (available_calendars lr t c).2.visible_ids = c.visible_ids ∧
    (available_calendars lr t c).2.visible_expires_at = c.visible_expires_at := by
  unfold available_calendars
  by_cases hg : c.available ≠ [] ∧ freshOpt c.available_expires_at t <;> simp [hg]

theorem avail_set_visible (lr : List Calendar) (t : PyTime) (c : CalendarCache)
    (vids : List String) (vexp : Option PyTime) :
    available_calendars lr t
        { c with visible_ids := vids, visible_expires_at := vexp }
      = ((available_calendars lr t c).1,
         { (available_calendars lr t c).2 with
           visible_ids := vids
           visible_expires_at := vexp }) := by
  unfold available_calendars
  by_cases hg : c.available ≠ [] ∧ freshOpt c.available_expires_at t <;> simp [hg]

theorem fresh_now (t : PyTime) (ttl : Nat) (h : 0 < ttl) :
    freshOpt (some (t + ttl)) t = true := by
  show decide (t < t + ttl) = true
  simp only [decide_eq_true_eq]
  exact Nat.lt_add_of_pos_right h

theorem stale_later (t1 t2 : PyTime) (ttl : Nat) (h : t1 + ttl ≤ t2) :
    freshOpt (some (t1 + ttl)) t2 = false := by
  show decide (t2 < t1 + ttl) = false
  simp only [decide_eq_false_iff_not]
  exact Nat.not_lt.mpr h

theorem avail_idem (lr : List Calendar) (t : PyTime) (c : CalendarCache) :
    available_calendars lr t (available_calendars lr t c).2
      = available_calendars lr t c := by
  by_cases hg : c.available ≠ [] ∧ freshOpt c.available_expires_at t
  · unfold available_calendars
    simp [hg]
  · have hfresh : freshOpt (some (t + CALENDAR_LIST_TTL)) t = true :=
      fresh_now t _ (by simp [CALENDAR_LIST_TTL])
    by_cases hA : (lr.filter (fun c => _supports_events c.access_role)).map
        _with_readonly_flag = []
    · unfold available_calendars
      simp [hg, hA, hfresh]
    · unfold available_calendars
      simp [hg, hA, hfresh]

theorem filter_contains_single {A : List Calendar} {b : Calendar}
    (hnd : (A.map (fun c => c.id)).Nodup) (hb : b ∈ A) :
    A.filter (fun c => ([b.id] : List String).contains c.id) = [b] := by
  induction A with
  | nil => cases hb
  | cons a rest ih =>
      simp only [List.map_cons, List.nodup_cons] at hnd
      obtain ⟨hna, hnr⟩ := hnd
      rcases List.mem_cons.mp hb with hb1 | hb2
      · subst hb1
        have hrest : rest.filter (fun c => ([b.id] : List String).contains c.id) = [] := by
          apply List.filter_eq_nil_iff.mpr
          intro x hx
          have hne : x.id ≠ b.id := by
            intro he
            exact hna (he ▸ List.mem_map.mpr ⟨x, hx, rfl⟩)
          simp [hne]
        simp only [List.filter_cons]
        rw [if_pos (by simp), hrest]
      · have hab : a.id ≠ b.id := by
          intro he
          exact hna (he ▸ List.mem_map.mpr ⟨b, hb2, rfl⟩)
        simp only [List.filter_cons]
        rw [if_neg (by simp [hab])]
        exact ih hnr hb2

/-- Claim C8: `visible_calendars` always returns a sublist of what
`available_calendars` returns in the same call (stored visible ids that are no
longer available are filtered out on read, and the operation is a total
function — it never errors), and with no prior selection it returns exactly
the first primary calendar of the available set when one exists, else the
empty list. -/
theorem claim_C8 (lr : List Calendar) (tNow : PyTime) (cache : CalendarCache) :
    (∀ x ∈ (visible_calendars lr tNow cache).1,
        x ∈ (available_calendars lr tNow cache).1) ∧
    (cache.visible_ids = [] →
      ((available_calendars lr tNow cache).1.map (fun c => c.id)).Nodup →
      (visible_calendars lr tNow cache).1
        = match (available_calendars lr tNow cache).1.find? (fun c => c.primary) with
          | some p => [p]
          | none => []) := by
  constructor
  · intro x hx
    unfold visible_calendars at hx
    exact List.mem_of_mem_filter hx
  · intro hv hnd
    have hvis := (avail_preserves_visible lr tNow cache).1
    unfold visible_calendars _visible_calendar_ids
    rw [hvis, hv]
    simp only [ne_eq, not_true_eq_false, false_and, if_false, recomputeDefaults]
    unfold _default_visible_ids
    cases hf : (available_calendars lr tNow cache).1.find? (fun c => c.primary) with
    | some p =>
        simp only [hf]
        exact filter_contains_single hnd (List.mem_of_find?_eq_some hf)
    | none =>
        simp only [hf]
        simp

/-- Claim C7: after `update_visible_calendars` selects the available calendar
`b`, the update's own return and an immediate `visible_calendars` call both
return exactly `[b]`; once the 7-day selection TTL has elapsed,
`visible_calendars` instead recomputes the default selection over the
then-available calendars and persists it with a fresh 7-day expiry. -/
theorem claim_C7 (lr : List Calendar) (t1 t2 : PyTime) (c0 : CalendarCache) (b : Calendar)
    (hb : b ∈ (available_calendars lr t1 c0).1)
    (hnd : ((available_calendars lr t1 c0).1.map (fun c => c.id)).Nodup)
    (ht : t1 + VISIBLE_SELECTION_TTL ≤ t2) :
    (update_visible_calendars lr t1 c0 [b.id]).1 = [b] ∧
    (visible_calendars lr t1 (update_visible_calendars lr t1 c0 [b.id]).2).1 = [b] ∧
    (visible_calendars lr t2 (update_visible_calendars lr t1 c0 [b.id]).2).2.visible_ids
      = _default_visible_ids
          (available_calendars lr t2 (update_visible_calendars lr t1 c0 [b.id]).2).1 ∧
    (visible_calendars lr t2
        (update_visible_calendars lr t1 c0 [b.id]).2).2.visible_expires_at
      = some (t2 + VISIBLE_SELECTION_TTL) ∧
    (visible_calendars lr t2 (update_visible_calendars lr t1 c0 [b.id]).2).1
      = (available_calendars lr t2 (update_visible_calendars lr t1 c0 [b.id]).2).1.filter
          (fun c => (_default_visible_ids
            (available_calendars lr t2
              (update_visible_calendars lr t1 c0 [b.id]).2).1).contains c.id) := by
  have hVpos : 0 < VISIBLE_SELECTION_TTL := by simp [VISIBLE_SELECTION_TTL]
  set c2 : CalendarCache :=
    { (available_calendars lr t1 c0).2 with
      visible_ids := [b.id]
      visible_expires_at := some (t1 + VISIBLE_SELECTION_TTL) } with hc2
  have hbid : ((available_calendars lr t1 c0).1.map (fun c => c.id)).contains b.id
      = true := by
    have : b.id ∈ (available_calendars lr t1 c0).1.map (fun c => c.id) :=
      List.mem_map.mpr ⟨b, hb, rfl⟩
    simpa using this
  have hfilterreq : ([b.id] : List String).filter
      (fun cid => ((available_calendars lr t1 c0).1.map (fun c => c.id)).contains cid)
      = [b.id] := by
    simp only [List.filter_cons, List.filter_nil, hbid]
    simp
  have hcache2 : update_visible_calendars lr t1 c0 [b.id]
      = visible_calendars lr t1 c2 := by
    unfold update_visible_calendars
    rw [hfilterreq]
    rfl
  have havail2 : available_calendars lr t1 c2
      = ((available_calendars lr t1 c0).1, c2) := by
    rw [hc2, avail_set_visible, avail_idem]
  have hany : (available_calendars lr t1 c0).1.any (fun c => c.id == b.id) = true :=
    List.any_eq_true.mpr ⟨b, hb, by simp⟩
  have hnormfull : ([b.id] : List String).filter
      (fun cid => (available_calendars lr t1 c0).1.any (fun c => c.id == cid)) = [b.id] := by
    simp [hany]
  have hfresh1 : freshOpt (some (t1 + VISIBLE_SELECTION_TTL)) t1 = true :=
    fresh_now _ _ hVpos
  have hvisid : _visible_calendar_ids t1 c2 (available_calendars lr t1 c0).1
      = ([b.id], c2) := by
    unfold _visible_calendar_ids
    rw [hc2]
    simp [hfresh1, hnormfull]
  have hvis1 : visible_calendars lr t1 c2 = ([b], c2) := by
    unfold visible_calendars
    simp only [havail2, hvisid]
    rw [filter_contains_single hnd hb]
  have hu2 : (update_visible_calendars lr t1 c0 [b.id]).2 = c2 := by
    rw [hcache2, hvis1]
  have hu1 : (update_visible_calendars lr t1 c0 [b.id]).1 = [b] := by
    rw [hcache2, hvis1]
  have hpres := avail_preserves_visible lr t2 c2
  have hstale : freshOpt (some (t1 + VISIBLE_SELECTION_TTL)) t2 = false :=
    stale_later _ _ _ ht
  have hvisid2 : _visible_calendar_ids t2 (available_calendars lr t2 c2).2
      (available_calendars lr t2 c2).1
      = recomputeDefaults t2 (available_calendars lr t2 c2).2
          (available_calendars lr t2 c2).1 := by
    unfold _visible_calendar_ids
    rw [hpres.1, hpres.2, hc2]
    simp [hstale]
  have hvist2 : visible_calendars lr t2 c2
      = ((available_calendars lr t2 c2).1.filter
          (fun c => (_default_visible_ids (available_calendars lr t2 c2).1).contains c.id),
         { (available_calendars lr t2 c2).2 with
           visible_ids := _default_visible_ids (available_calendars lr t2 c2).1
           visible_expires_at := some (t2 + VISIBLE_SELECTION_TTL) }) := by
    unfold visible_calendars
    rw [hvisid2]
    simp only [recomputeDefaults]
  refine ⟨hu1, ?_, ?_, ?_, ?_⟩
  · rw [hu2, hvis1]
  · rw [hu2, hvist2]
  · rw [hu2, hvist2]
  · rw [hu2, hvist2]

/-- Claim C10: updating the visible selection with ids none of which is
currently available (in particular with an empty list) stores an empty
`visible_ids`, so the read recomputes and persists the default selection; when
a primary calendar exists among the available ones, the call therefore returns
exactly that primary calendar — never an empty selection. -/
theorem claim_C10 (lr : List Calendar) (tNow : PyTime) (c0 : CalendarCache)
    (req : List String) (p : Calendar)
    (hreq : req.filter (fun cid =>
        ((available_calendars lr tNow c0).1.map (fun c => c.id)).contains cid) = [])
    (hfind : (available_calendars lr tNow c0).1.find? (fun c => c.primary) = some p)
    (hnd : ((available_calendars lr tNow c0).1.map (fun c => c.id)).Nodup) :
    (update_visible_calendars lr tNow c0 req).1 = [p] ∧
    (update_visible_calendars lr tNow c0 req).2.visible_ids = [p.id] ∧
    (update_visible_calendars lr tNow c0 req).1 ≠ [] := by
  set c2 : CalendarCache :=
    { (available_calendars lr tNow c0).2 with
      visible_ids := []
      visible_expires_at := some (tNow + VISIBLE_SELECTION_TTL) } with hc2
  have hcache2 : update_visible_calendars lr tNow c0 req
      = visible_calendars lr tNow c2 := by
    unfold update_visible_calendars
    rw [hreq]
    rfl
  have havail2 : available_calendars lr tNow c2
      = ((available_calendars lr tNow c0).1, c2) := by
    rw [hc2, avail_set_visible, avail_idem]
  have hvisid : _visible_calendar_ids tNow c2 (available_calendars lr tNow c0).1
      = recomputeDefaults tNow c2 (available_calendars lr tNow c0).1 := by
    unfold _visible_calendar_ids
    rw [hc2]
    simp
  have hdef : _default_visible_ids (available_calendars lr tNow c0).1 = [p.id] := by
    unfold _default_visible_ids
    rw [hfind]
  have hp_mem : p ∈ (available_calendars lr tNow c0).1 :=
    List.mem_of_find?_eq_some hfind
  have hvis : visible_calendars lr tNow c2
      = ([p], { c2 with
          visible_ids := [p.id]
          visible_expires_at := some (tNow + VISIBLE_SELECTION_TTL) }) := by
    unfold visible_calendars
    simp only [havail2, hvisid, recomputeDefaults, hdef]
    rw [filter_contains_single hnd hp_mem]
  refine ⟨?_, ?_, ?_⟩
  · rw [hcache2, hvis]
  · rw [hcache2, hvis]
  · rw [hcache2, hvis]
    simp

/-- Witness for C7: with available calendars `primary` (primary) and `b`,
selecting `["b"]` at time 0 yields exactly `b` immediately, and once the 7-day
TTL has elapsed the recomputation persists a fresh 7-day expiry. -/
theorem claim_C7_witness :
    (let calP : Calendar := { id := "primary", primary := true, access_role := some "owner" }
     let calB : Calendar := { id := "b", access_role := some "writer" }
     (update_visible_calendars [calP, calB] 0 {} ["b"]).1 = [calB] ∧
     (visible_calendars [calP, calB] 0
        (update_visible_calendars [calP, calB] 0 {} ["b"]).2).1 = [calB] ∧
     (visible_calendars [calP, calB] VISIBLE_SELECTION_TTL
        (update_visible_calendars [calP, calB] 0 {} ["b"]).2).2.visible_expires_at
       = some (VISIBLE_SELECTION_TTL + VISIBLE_SELECTION_TTL)) := by
  intro calP calB
  have h := claim_C7 [calP, calB] 0 VISIBLE_SELECTION_TTL {} calB
    (by decide) (by decide) (by decide)
  exact ⟨h.1, h.2.1, h.2.2.2.1⟩

/-- Witness for C8: with available calendars `primary` (primary) and `b` and
no prior selection, `visible_calendars` returns exactly the primary calendar,
which is in particular among the available ones. -/
theorem claim_C8_witness :
    (let calP : Calendar := { id := "primary", primary := true, access_role := some "owner" }
     let calB : Calendar := { id := "b", access_role := some "writer" }
     calP ∈ (available_calendars [calP, calB] 0 {}).1 ∧
     (visible_calendars [calP, calB] 0 {}).1 = [calP]) := by
  intro calP calB
  refine ⟨(claim_C8 [calP, calB] 0 {}).1 calP (by decide), ?_⟩
  rw [(claim_C8 [calP, calB] 0 {}).2 rfl (by decide)]
  rfl

/-- Witness for C10: updating the selection with an unknown id, or with the
empty list, falls back to the primary calendar rather than an empty
selection. -/
theorem claim_C10_witness :
    (let calP : Calendar := { id := "primary", primary := true, access_role := some "owner" }
     let calB : Calendar := { id := "b", access_role := some "writer" }
     (update_visible_calendars [calP, calB] 0 {} ["never-seen"]).1 = [calP] ∧
     (update_visible_calendars [calP, calB] 0 {} []).1 = [calP]) := by
  intro calP calB
  exact ⟨(claim_C10 [calP, calB] 0 {} ["never-seen"] calP
      (by decide) (by decide) (by decide)).1,
    (claim_C10 [calP, calB] 0 {} [] calP (by decide) (by decide) (by decide)).1⟩

end WebAgent
